import Mathlib

/-!
Shallow embedding of `plugins/Sub-GHz/subGhz.py` (PWNsubGhz Enhanced plugin):
the menu construction and dispatch of `PWNsubGhzEnhanced`, the console log,
the matrix-rain animation state of `HackingUI`, the progress-bar fill
computation, the RF-scanner workflow loop, and the message dialog loop.

Randomness (`random.randint`, `random.choice`) is modelled by oracle
parameters constrained to the ranges the source requests; hardware results
(`rawRecv`, key polling) are modelled by oracle streams; a call that may
raise is modelled by an `Option` result.
-/

namespace PwnSubGhz

/-- Key events produced by `get_key_input` (`"up"/"down"/"select"/"back"`). -/
inductive Key
  | up
  | down
  | select
  | back
deriving DecidableEq

/-- `charsPrefix p s` is true when `p` is an initial segment of `s`. -/
def charsPrefix : List Char → List Char → Bool
  | [], _ => true
  | _ :: _, [] => false
  | a :: p, b :: s => a == b && charsPrefix p s

/-- `charsContain p s` is true when `p` occurs contiguously inside `s`. -/
def charsContain (p : List Char) : List Char → Bool
  | [] => p.isEmpty
  | c :: rest => charsPrefix p (c :: rest) || charsContain p rest

/-- Python's substring test `pat in s` on strings. -/
def pyIn (pat s : String) : Bool :=
  charsContain pat.toList s.toList

/-- `PWNsubGhzEnhanced.__init__` (lines 218-225): the `main_menu` list.  Labels
of the four CC1101-gated items depend only on the module-import flag
`CC1101_AVAILABLE`. -/
def main_menu (cc1101_available : Bool) : List String :=
  ["FM Radio Transmit",
   if cc1101_available then "RF Scanner" else "RF Scanner [DISABLED]",
   if cc1101_available then "Replay Attack" else "Replay Attack [DISABLED]",
   if cc1101_available then "Set RF Power" else "Set RF Power [DISABLED]",
   if cc1101_available then "Set Frequency" else "Set Frequency [DISABLED]",
   "Exit"]

/-- The `self.<method>()` call (or local effect) chosen by
`execute_menu_item`; `nothing` means every branch of the if/elif chain was
skipped, so no call is made at all. -/
inductive MenuCall
  | fm_radio_menu
  | rf_scanner
  | replay_attack
  | set_rf_power
  | set_frequency
  | exit_app
  | nothing
deriving DecidableEq

/-- `PWNsubGhzEnhanced.execute_menu_item` (lines 302-317): the if/elif chain
of substring tests over the selected item's label, each CC1101 branch also
requiring `CC1101_AVAILABLE`. -/
def execute_menu_item (cc1101_available : Bool) (item : String) : MenuCall :=
  if pyIn "FM Radio" item then .fm_radio_menu
  else if pyIn "RF Scanner" item && cc1101_available then .rf_scanner
  else if pyIn "Replay Attack" item && cc1101_available then .replay_attack
  else if pyIn "Set RF Power" item && cc1101_available then .set_rf_power
  else if pyIn "Set Frequency" item && cc1101_available then .set_frequency
  else if pyIn "Exit" item then .exit_app
  else .nothing

/-- The method name invoked on `self` for each dispatch outcome
(`exit_app` only assigns `self.ui.running = False`; `nothing` calls
nothing). -/
def callMethodName : MenuCall → Option String
  | MenuCall.fm_radio_menu => some "fm_radio_menu"
  | MenuCall.rf_scanner => some "rf_scanner"
  | MenuCall.replay_attack => some "replay_attack"
  | MenuCall.set_rf_power => some "set_rf_power"
  | MenuCall.set_frequency => some "set_frequency"
  | MenuCall.exit_app => none
  | MenuCall.nothing => none

/-- The complete set of methods defined on class `PWNsubGhzEnhanced`
(lines 210-488 of the source).  `replay_attack`, `set_rf_power` and
`set_frequency` are absent: the class never defines them. -/
def definedMethods : List String :=
  ["__init__", "init_hardware", "log", "show_splash", "handle_input",
   "execute_menu_item", "fm_radio_menu", "fm_transmit", "rf_scanner",
   "show_message", "get_key_input", "run"]

/-- Python attribute lookup for the method call chosen by
`execute_menu_item`: calling a method that the class does not define raises
`AttributeError` (there is no try/except around `execute_menu_item`, so the
exception escapes `handle_input` and `run`). -/
def dispatch_raises (cc1101_available : Bool) (item : String) : Option String :=
  match callMethodName (execute_menu_item cc1101_available item) with
  | some m =>
      if definedMethods.contains m then none
      else some ("AttributeError: " ++ m)
  | none => none

/-- `PWNsubGhzEnhanced.init_hardware` (lines 246-257), transceiver part:
`self.transceiver` is non-None exactly when the CC1101 modules imported and
the `ccrf.pCC1101()` construction did not raise (`acquireOk`). -/
def init_hardware_transceiver (cc1101_available acquireOk : Bool) : Bool :=
  if cc1101_available then acquireOk else false

/-- `PWNsubGhzEnhanced.log` (lines 259-265): prepend a timestamp, append,
and when the length exceeds 50 keep only the last 50 entries
(`console_lines[-50:]`). -/
def log (console_lines : List String) (timestamp message : String) : List String :=
  let ls := console_lines ++ [timestamp ++ " " ++ message]
  if 50 < ls.length then ls.drop (ls.length - 50) else ls

/-- The formatted console entry for one `(timestamp, message)` pair. -/
def log_entry (p : String × String) : String :=
  p.1 ++ " " ++ p.2

/-- Result of a sequence of `log` calls starting from an empty console. -/
def log_run (ps : List (String × String)) : List String :=
  ps.foldl (fun acc p => log acc p.1 p.2) []

/-- One matrix-rain drop (`HackingUI.__init__`, lines 63-69): a column `x`,
a vertical position `y`, a `speed`, and a glyph (character code). -/
structure MatrixDrop where
  x : Int
  y : Int
  speed : Int
  char : Nat
deriving DecidableEq

/-- Oracle values used when a drop resets off-screen: `random.randint(-20, -5)`
for `y`, `random.randint(1, 3)` for `speed`, `random.randint(33, 126)` for
the glyph. -/
structure RandDrop where
  ry : Int
  rspeed : Int
  rchar : Nat
deriving DecidableEq

/-- The ranges `random.randint` is called with in `draw_matrix_rain`. -/
def validRand (r : RandDrop) : Prop :=
  -20 ≤ r.ry ∧ r.ry ≤ -5 ∧ 1 ≤ r.rspeed ∧ r.rspeed ≤ 3 ∧
    33 ≤ r.rchar ∧ r.rchar ≤ 126

instance (r : RandDrop) : Decidable (validRand r) := by
  unfold validRand; infer_instance

/-- The per-drop update of `HackingUI.draw_matrix_rain` (lines 84-91):
`y += speed`, then if `y > height` reset `y`, glyph and `speed` from fresh
random values. -/
def updateDrop (height : Int) (r : RandDrop) (d : MatrixDrop) : MatrixDrop :=
  let moved : MatrixDrop := { d with y := d.y + d.speed }
  if height < moved.y then
    { moved with y := r.ry, char := r.rchar, speed := r.rspeed }
  else moved

/-- `n` successive updates of one drop, step `k` drawing its reset values
from `rs k`. -/
def updateDropN (height : Int) (rs : Nat → RandDrop) : Nat → MatrixDrop → MatrixDrop
  | 0, d => d
  | n + 1, d => updateDrop height (rs n) (updateDropN height rs n d)

/-- `HackingUI.draw_matrix_rain` over the whole drop list (drawing has no
state effect; the per-drop position update is `updateDrop`). -/
def draw_matrix_rain (height : Int) (rnd : Nat → RandDrop) (drops : List MatrixDrop) :
    List MatrixDrop :=
  drops.mapIdx fun i d => updateDrop height (rnd i) d

/-- Random draws made by one `update_display` call:
`bgHit` is `random.randint(0, 10) == 0` (matrix rain overlay),
`glitchHit` is `random.randint(0, 20) == 0` (glitch overlay, pixels only),
`dropRand` the per-drop reset values if the rain advances. -/
structure FrameRand where
  bgHit : Bool
  glitchHit : Bool
  dropRand : Nat → RandDrop

/-- The mutable visual state of `HackingUI` touched by `update_display`. -/
structure UIState where
  width : Int
  height : Int
  matrix_drops : List MatrixDrop
  blink_state : Bool

/-- `HackingUI.__init__` (lines 43-53): canvas dimensions come from the
device when present, and default to 128 x 64 when display init failed. -/
def initDims (device : Option (Nat × Nat)) : Nat × Nat :=
  match device with
  | some wh => wh
  | none => (128, 64)

/-- `HackingUI.update_display` (lines 188-205): with no device it returns
immediately; otherwise it may advance the matrix rain (probability oracle
`r.bgHit`), draws the frame, and toggles `blink_state`. -/
def update_display (deviceOk : Bool) (r : FrameRand) (st : UIState) : UIState :=
  if deviceOk then
    let st1 :=
      if r.bgHit then
        { st with matrix_drops := draw_matrix_rain st.height r.dropRand st.matrix_drops }
      else st
    { st1 with blink_state := !st1.blink_state }
  else st

/-- The `for _ in range(n)` loop of `show_message`: each iteration renders
one frame through `update_display` (the second component counts frames
rendered so far and indexes the per-frame random oracle). -/
def show_message_loop (deviceOk : Bool) (r : Nat → FrameRand) :
    Nat → UIState × Nat → UIState × Nat
  | 0, sc => sc
  | n + 1, (st, frames) =>
      show_message_loop deviceOk r n (update_display deviceOk (r frames) st, frames + 1)

/-- `PWNsubGhzEnhanced.show_message` (lines 452-461): renders 30 frames
(`range(30)`, 0.1 s sleep each) and returns.  The body contains no
`get_key_input` call, so the key cursor (position in the key-event stream)
is returned unchanged. -/
def show_message (deviceOk : Bool) (r : Nat → FrameRand) (st : UIState)
    (frames keyCursor : Nat) : (UIState × Nat) × Nat :=
  (show_message_loop deviceOk r 30 (st, frames), keyCursor)

/-- `HackingUI.draw_progress_bar` (line 177):
`fill_width = int((self.width - 22) * (progress / 100))`.  The Python float
arithmetic is modelled by exact rational arithmetic; `int` truncation on the
nonnegative values that arise is the floor. -/
def draw_progress_bar_fill (width progress : Nat) : Int :=
  ⌊((width : ℚ) - 22) * ((progress : ℚ) / 100)⌋

/-- Observable outcome of one `rf_scanner` run: the text handed to
`show_message` (if any), the number of `rawRecv` calls made, the accumulated
`scan_data` bits, and the messages passed to `self.log`, in order. -/
structure ScanResult where
  message_shown : Option String
  recv_calls : Nat
  scan_data : List Nat
  logs : List String
deriving DecidableEq

/-- `if data: scan_data.extend(data)` for one `rawRecv` result; `none`
models a raised exception, swallowed by the inner `try`/`except`. -/
def recvAppend (acc : List Nat) (r : Option (List Nat)) : List Nat :=
  match r with
  | some d => if d.isEmpty then acc else acc ++ d
  | none => acc

/-- The `for i in range(200)` loop of `rf_scanner` (lines 416-445): one
bounded `rawRecv` per iteration, accumulate, then break if the polled key is
`back`.  Arguments: remaining iterations, current index, `rawRecv` calls so
far, accumulated bits. -/
def scanLoop (recv : Nat → Option (List Nat)) (key : Nat → Option Key) :
    Nat → Nat → Nat → List Nat → Nat × List Nat
  | 0, _, calls, acc => (calls, acc)
  | fuel + 1, i, calls, acc =>
      if key i = some Key.back then (calls + 1, recvAppend acc (recv i))
      else scanLoop recv key fuel (i + 1) (calls + 1) (recvAppend acc (recv i))

/-- `PWNsubGhzEnhanced.rf_scanner` (lines 402-450): with no transceiver
handle, show the "CC1101 not available" dialog and return (no receive, no
log); otherwise log a start message, and either fail arming (`rst` /
`setupRawRecieve` raised, caught by the outer `try`) or run the 200-iteration
scan loop and log the captured bit count. -/
def rf_scanner (transceiver armOk : Bool) (armErr : String)
    (recv : Nat → Option (List Nat)) (key : Nat → Option Key) : ScanResult :=
  if !transceiver then
    { message_shown := some "CC1101 not available", recv_calls := 0,
      scan_data := [], logs := [] }
  else if !armOk then
    { message_shown := none, recv_calls := 0, scan_data := [],
      logs := ["Starting RF scanner", "Scanner error: " ++ armErr] }
  else
    let out := scanLoop recv key 200 0 0 []
    { message_shown := none, recv_calls := out.1, scan_data := out.2,
      logs := ["Starting RF scanner",
               "Scan complete: " ++ toString out.2.length ++ " bits captured"] }

/-- Concatenation of the bit lists returned by calls `i, i+1, ...` over
`fuel` iterations. -/
def concatBits (d : Nat → List Nat) : Nat → Nat → List Nat
  | _, 0 => []
  | i, fuel + 1 => d i ++ concatBits d (i + 1) fuel

/-! ## Theorems -/

/-- C1 (code bug): with the CC1101 modules importable (`CC1101_AVAILABLE =
True`), the main-menu item at `selected_item = 2` is "Replay Attack", and
dispatching it calls `self.replay_attack()` — a method class
`PWNsubGhzEnhanced` never defines — so dispatch raises `AttributeError`,
which escapes `handle_input` and `run` and kills the menu loop.  This
contradicts the claim that dispatch never raises an uncaught exception past
the state machine. -/
theorem dispatch_replay_attack_raises :
    (main_menu true).getD 2 "" = "Replay Attack" ∧
      dispatch_raises true ((main_menu true).getD 2 "")
        = some "AttributeError: replay_attack" := by
  decide

/-- C2 counterexample: with the CC1101 modules missing, the disabled item
"RF Scanner [DISABLED]" is still in the menu, but selecting it falls through
every branch of `execute_menu_item` (`MenuCall.nothing`): no workflow method
is invoked, so in particular nothing is logged — there is no
"feature unavailable" message, refuting the claim that the no-op logs one. -/
theorem disabled_select_silent_cex :
    execute_menu_item false "RF Scanner [DISABLED]" = MenuCall.nothing ∧
      "RF Scanner [DISABLED]" ∈ main_menu false := by
  decide

/-- C2 (amended): selecting a menu item whose capability is disabled is a
silent no-op — dispatch falls through every branch, invoking no workflow
and logging nothing; the disabled item stays in the menu list, marked with a
" [DISABLED]" suffix, still navigable, and is never removed (the menu keeps
all six entries in both configurations). -/
theorem disabled_items_silent_noop :
    execute_menu_item false "RF Scanner [DISABLED]" = MenuCall.nothing ∧
    execute_menu_item false "Replay Attack [DISABLED]" = MenuCall.nothing ∧
    execute_menu_item false "Set RF Power [DISABLED]" = MenuCall.nothing ∧
    execute_menu_item false "Set Frequency [DISABLED]" = MenuCall.nothing ∧
    main_menu false
      = ["FM Radio Transmit", "RF Scanner [DISABLED]", "Replay Attack [DISABLED]",
         "Set RF Power [DISABLED]", "Set Frequency [DISABLED]", "Exit"] ∧
    (main_menu false).length = (main_menu true).length := by
  decide

/-- C3 counterexample: with the CC1101 modules importable but the
`ccrf.pCC1101()` construction failing, the transceiver handle is recorded as
absent (`init_hardware_transceiver true false = false`), yet the
"RF Scanner" menu item carries no "[DISABLED]" marker — the enabled flag
does not equal handle presence, refuting the claim. -/
theorem marker_ignores_handle_cex :
    init_hardware_transceiver true false = false ∧
      (main_menu true).getD 1 "" = "RF Scanner" ∧
      pyIn "[DISABLED]" ((main_menu true).getD 1 "") = false := by
  decide

/-- C3 (amended): each gated item's enabled flag (absence of the
"[DISABLED]" marker) equals the CC1101 module-import flag
`CC1101_AVAILABLE`, fixed at startup — not the acquired handle, which is
present only when the import succeeded *and* acquisition did not raise.
When import succeeds but acquisition fails, the items stay unmarked although
the handle is absent. -/
theorem menu_flags_follow_import :
    ∀ cc acquireOk : Bool,
      init_hardware_transceiver cc acquireOk = (cc && acquireOk) ∧
      ((pyIn "[DISABLED]" ((main_menu cc).getD 1 "") = false) ↔ cc = true) ∧
      ((pyIn "[DISABLED]" ((main_menu cc).getD 2 "") = false) ↔ cc = true) ∧
      ((pyIn "[DISABLED]" ((main_menu cc).getD 3 "") = false) ↔ cc = true) ∧
      ((pyIn "[DISABLED]" ((main_menu cc).getD 4 "") = false) ↔ cc = true) := by
  decide

/-- C4 counterexample: with the CC1101 modules missing (so the radio
capability is absent), the RF Scanner menu entry is
"RF Scanner [DISABLED]", and selecting it dispatches to no workflow at all
(`MenuCall.nothing`): `rf_scanner` is never entered, so the
"CC1101 not available" MessageDialog is never shown — refuting the claim
that the dialog appears whenever the radio capability is absent. -/
theorem rf_scanner_no_dialog_cex :
    (main_menu false).getD 1 "" = "RF Scanner [DISABLED]" ∧
      execute_menu_item false ((main_menu false).getD 1 "") = MenuCall.nothing := by
  decide

/-- C4 (amended): no raw-receive call is ever attempted while the
transceiver handle is absent; but the "CC1101 not available" MessageDialog
appears only in the configuration where the CC1101 modules imported and
acquisition failed (dispatch reaches `rf_scanner`, which short-circuits to
the dialog with zero receive calls).  When the modules failed to import,
selecting the disabled item is a silent no-op and no dialog is shown. -/
theorem rf_scanner_absent_radio (armOk : Bool) (armErr : String)
    (recv : Nat → Option (List Nat)) (key : Nat → Option Key) :
    execute_menu_item true "RF Scanner" = MenuCall.rf_scanner ∧
    (rf_scanner false armOk armErr recv key).message_shown
      = some "CC1101 not available" ∧
    (rf_scanner false armOk armErr recv key).recv_calls = 0 ∧
    execute_menu_item false "RF Scanner [DISABLED]" = MenuCall.nothing := by
  refine ⟨by decide, ?_, ?_, by decide⟩ <;> simp [rf_scanner]

/-- A concrete frame-randomness oracle. -/
def frameRandConst : FrameRand :=
  ⟨true, false, fun _ => ⟨-10, 2, 64⟩⟩

/-- A concrete UI state with one drop and the blink flag off. -/
def uiStateConst : UIState :=
  ⟨128, 64, [⟨0, 0, 1, 33⟩], false⟩

/-- C9 counterexample: with no display device, `update_display` returns
immediately — the state (blink flag included) is unchanged, so BlinkState
is *not* toggled once per frame and the animation does not advance,
refuting the claim that rendering still proceeds with no device. -/
theorem no_device_no_render_cex :
    update_display false frameRandConst uiStateConst = uiStateConst ∧
      (update_display false frameRandConst uiStateConst).blink_state
        = uiStateConst.blink_state := by
  constructor <;> rfl

/-- C9 (amended): when the display driver is unavailable the canvas
dimensions default to 128 x 64, but `update_display` then returns
immediately without rendering: the whole state is unchanged — BlinkState is
not toggled and animation state does not advance.  BlinkState toggles once
per frame only when a device is present. -/
theorem no_device_default_dims (r : FrameRand) (st : UIState) :
    initDims none = (128, 64) ∧
    update_display false r st = st ∧
    (update_display true r st).blink_state = !st.blink_state := by
  refine ⟨rfl, rfl, ?_⟩
  unfold update_display
  by_cases h : r.bgHit <;> simp [h]

/-- Dropping to the last `n` elements commutes with later appends: keeping
the last `n` of `l` before appending `m` gives the same last-`n` suffix as
appending first. -/
theorem drop_last_append {α : Type} (n : Nat) (l m : List α) :
    (l.drop (l.length - n) ++ m).drop ((l.drop (l.length - n) ++ m).length - n)
      = (l ++ m).drop ((l ++ m).length - n) := by
  rcases le_or_lt l.length n with h | h
  · simp [Nat.sub_eq_zero_of_le h]
  · rw [List.drop_append_eq_append_drop, List.drop_append_eq_append_drop,
      List.drop_drop]
    simp only [List.length_append, List.length_drop]
    congr 1
    · congr 1
      omega
    · congr 1
      omega

/-- One `log` call keeps exactly the last 50 entries of the extended
history. -/
theorem log_step_eq (acc : List String) (t msg : String) :
    log acc t msg
      = (acc ++ [t ++ " " ++ msg]).drop ((acc ++ [t ++ " " ++ msg]).length - 50) := by
  unfold log
  by_cases h50 : 50 < (acc ++ [t ++ " " ++ msg]).length
  · simp only [if_pos h50]
  · simp only [if_neg h50]
    have hz : (acc ++ [t ++ " " ++ msg]).length - 50 = 0 := by omega
    rw [hz, List.drop_zero]

/-- A run of `log` calls from any console holding at most 50 entries keeps
exactly the last 50 entries of the full appended history. -/
theorem log_run_aux (ps : List (String × String)) :
    ∀ acc : List String, acc.length ≤ 50 →
      ps.foldl (fun a p => log a p.1 p.2) acc
        = (acc ++ ps.map log_entry).drop ((acc ++ ps.map log_entry).length - 50) := by
  induction ps with
  | nil =>
      intro acc h
      simp only [List.foldl_nil, List.map_nil, List.append_nil]
      rw [Nat.sub_eq_zero_of_le h, List.drop_zero]
  | cons p ps ih =>
      intro acc h
      rw [List.foldl_cons, log_step_eq acc p.1 p.2]
      rw [ih _ (by rw [List.length_drop]; omega)]
      rw [drop_last_append]
      simp only [List.map_cons, List.append_assoc, List.singleton_append, log_entry]

/-- C5: for every sequence of `n` appended (timestamp, message) pairs, the
console log afterwards has length `min n 50`, and the retained entries are
exactly the last `min n 50` formatted entries in their original insertion
order (pure FIFO eviction of the oldest). -/
theorem console_log_fifo (ps : List (String × String)) :
    (log_run ps).length = min ps.length 50 ∧
      log_run ps = (ps.map log_entry).drop (ps.length - 50) := by
  have h := log_run_aux ps [] (by simp)
  simp only [List.nil_append] at h
  unfold log_run
  rw [h]
  constructor
  · rw [List.length_drop, List.length_map]
    omega
  · rw [List.length_map]

/-- The message-dialog loop renders exactly one frame per iteration. -/
theorem show_message_loop_frames (deviceOk : Bool) (r : Nat → FrameRand) :
    ∀ n st frames, (show_message_loop deviceOk r n (st, frames)).2 = frames + n := by
  intro n
  induction n with
  | zero => intro st frames; rfl
  | succ n ih =>
      intro st frames
      rw [show_message_loop, ih]
      omega

/-- C10: `show_message` always renders exactly 30 frames (its `range(30)`
loop at fixed 0.1 s pacing) before returning, for every device state, every
randomness stream and every key-event situation; its body never calls
`get_key_input`, so the key cursor is returned unchanged — no key event,
`back` included, can end the dialog early or be consumed while it shows. -/
theorem show_message_fixed_frames (deviceOk : Bool) (r : Nat → FrameRand)
    (st : UIState) (frames keyCursor : Nat) :
    (show_message deviceOk r st frames keyCursor).1.2 = frames + 30 ∧
      (show_message deviceOk r st frames keyCursor).2 = keyCursor :=
  ⟨show_message_loop_frames deviceOk r 30 st frames, rfl⟩

/-- The invariant one drop maintains across updates: `y` within
`[-20, height]`, `speed` within `[1, 3]`, and the column `x` fixed. -/
def dropInv (height x0 : Int) (d : MatrixDrop) : Prop :=
  -20 ≤ d.y ∧ d.y ≤ height ∧ 1 ≤ d.speed ∧ d.speed ≤ 3 ∧ d.x = x0

/-- One `updateDrop` step preserves `dropInv` whenever the reset randomness
is drawn from the ranges the source requests. -/
theorem updateDrop_inv (height x0 : Int) (r : RandDrop) (d : MatrixDrop)
    (hh : 0 ≤ height) (hr : validRand r) (hd : dropInv height x0 d) :
    dropInv height x0 (updateDrop height r d) := by
  obtain ⟨h1, h2, h3, h4, h5⟩ := hd
  obtain ⟨r1, r2, r3, r4, -, -⟩ := hr
  unfold updateDrop dropInv
  by_cases hc : height < d.y + d.speed
  · simp only [if_pos hc]
    exact ⟨by omega, by omega, by omega, by omega, h5⟩
  · simp only [if_neg hc]
    exact ⟨by omega, by omega, h3, h4, h5⟩

/-- C6: starting from any freshly created drop (`y` drawn from `[-20, 0]`,
`speed` from `[1, 3]`), after any number of updates the drop's `y` lies
within `[-20, height]` and its `x` is unchanged from creation; and whenever
an update's increment would take `y` above `height`, that same update resets
`y` into `[-20, -5]`, the speed into `[1, 3]`, and sets the glyph to the
freshly drawn random character. -/
theorem matrix_drop_bounds (height : Int) (d0 : MatrixDrop) (rs : Nat → RandDrop)
    (hh : 0 ≤ height)
    (hy : -20 ≤ d0.y ∧ d0.y ≤ 0) (hs : 1 ≤ d0.speed ∧ d0.speed ≤ 3)
    (hrs : ∀ i, validRand (rs i)) :
    ∀ n,
      (-20 ≤ (updateDropN height rs n d0).y ∧
        (updateDropN height rs n d0).y ≤ height ∧
        (updateDropN height rs n d0).x = d0.x) ∧
      (height < (updateDropN height rs n d0).y + (updateDropN height rs n d0).speed →
        -20 ≤ (updateDropN height rs (n + 1) d0).y ∧
        (updateDropN height rs (n + 1) d0).y ≤ -5 ∧
        1 ≤ (updateDropN height rs (n + 1) d0).speed ∧
        (updateDropN height rs (n + 1) d0).speed ≤ 3 ∧
        (updateDropN height rs (n + 1) d0).char = (rs n).rchar) := by
  have key : ∀ n, dropInv height d0.x (updateDropN height rs n d0) := by
    intro n
    induction n with
    | zero =>
        show dropInv height d0.x d0
        exact ⟨hy.1, by omega, hs.1, hs.2, rfl⟩
    | succ n ih => exact updateDrop_inv height d0.x (rs n) _ hh (hrs n) ih
  intro n
  refine ⟨⟨(key n).1, (key n).2.1, (key n).2.2.2.2⟩, ?_⟩
  intro hover
  obtain ⟨r1, r2, r3, r4, -, -⟩ := hrs n
  have hstep : updateDropN height rs (n + 1) d0
      = updateDrop height (rs n) (updateDropN height rs n d0) := rfl
  rw [hstep]
  unfold updateDrop
  simp only [if_pos hover]
  exact ⟨r1, r2, r3, r4, by trivial⟩

/-- A concrete reset-randomness stream for the witness. -/
def rsConst : Nat → RandDrop := fun _ => ⟨-10, 2, 64⟩

/-- A concrete freshly created drop in column 8. -/
def d0Const : MatrixDrop := ⟨8, 0, 1, 33⟩

/-- Every element of the constant stream is within the source's ranges. -/
theorem rsConst_valid : ∀ i, validRand (rsConst i) := fun _ => by
  unfold rsConst validRand
  norm_num

/-- Witness for C6 at height 64, stream `rsConst`, drop `d0Const`, after 5
updates. -/
theorem matrix_drop_bounds_witness :
    -20 ≤ (updateDropN 64 rsConst 5 d0Const).y ∧
      (updateDropN 64 rsConst 5 d0Const).y ≤ 64 ∧
      (updateDropN 64 rsConst 5 d0Const).x = d0Const.x :=
  (matrix_drop_bounds 64 d0Const rsConst (by decide) (by decide) (by decide)
    rsConst_valid 5).1

/-- The floor of the exact rational fill expression is the natural-number
floor division `(width - 22) * progress / 100`. -/
theorem fill_eq_div (w p : Nat) (hw : 22 ≤ w) :
    draw_progress_bar_fill w p = ((w - 22) * p / 100 : Nat) := by
  unfold draw_progress_bar_fill
  have hx : ((w : ℚ) - 22) * ((p : ℚ) / 100) = (((w - 22) * p : ℕ) : ℚ) / 100 := by
    push_cast [Nat.cast_sub hw]
    ring
  rw [hx, Int.floor_eq_iff]
  have h100 : (0 : ℚ) < 100 := by norm_num
  constructor
  · rw [le_div_iff₀ h100]
    exact_mod_cast Nat.div_mul_le_self ((w - 22) * p) 100
  · rw [div_lt_iff₀ h100]
    have hdm := Nat.div_add_mod ((w - 22) * p) 100
    have hml : (w - 22) * p % 100 < 100 := Nat.mod_lt _ (by norm_num)
    have hlt : (w - 22) * p < ((w - 22) * p / 100 + 1) * 100 := by omega
    exact_mod_cast hlt

/-- C7: for every canvas at least 22 wide and percents `p ≤ q ≤ 100`, the
progress-bar fill width is the floor of `(width - 22) * percent / 100`
(`width - 22` being the bar's interior width), it is monotonically
non-decreasing in the percent, and at percent 100 it equals the full
interior width. -/
theorem progress_fill_props (w p q : Nat) (hw : 22 ≤ w) (hpq : p ≤ q) (hq : q ≤ 100) :
    draw_progress_bar_fill w p = ((w - 22) * p / 100 : Nat) ∧
      draw_progress_bar_fill w p ≤ draw_progress_bar_fill w q ∧
      draw_progress_bar_fill w 100 = ((w - 22 : Nat) : Int) := by
  refine ⟨fill_eq_div w p hw, ?_, ?_⟩
  · rw [fill_eq_div w p hw, fill_eq_div w q hw]
    exact_mod_cast Nat.div_le_div_right (Nat.mul_le_mul_left _ hpq)
  · rw [fill_eq_div w 100 hw]
    have hc : (w - 22) * 100 / 100 = w - 22 := by omega
    exact_mod_cast hc

/-- Witness for C7 on a 128-wide canvas at percents 30 and 60. -/
theorem progress_fill_props_witness :
    draw_progress_bar_fill 128 30 = 31 ∧
      draw_progress_bar_fill 128 30 ≤ draw_progress_bar_fill 128 60 ∧
      draw_progress_bar_fill 128 100 = 106 := by
  obtain ⟨h1, h2, h3⟩ :=
    progress_fill_props 128 30 60 (by norm_num) (by norm_num) (by norm_num)
  refine ⟨?_, h2, ?_⟩
  · rw [h1]; decide
  · rw [h3]; decide

/-- `if data: scan_data.extend(data)` on a successful receive appends the
returned bits (appending an empty result is the identity either way). -/
theorem recvAppend_some (acc : List Nat) (d : List Nat) :
    recvAppend acc (some d) = acc ++ d := by
  cases d <;> simp [recvAppend]

/-- When no polled key is `back` and every receive succeeds, the scan loop
runs all its iterations, making one receive call each and accumulating
every returned bit in order. -/
theorem scanLoop_no_back (recv : Nat → Option (List Nat)) (key : Nat → Option Key)
    (d : Nat → List Nat)
    (hkey : ∀ i, key i ≠ some Key.back) (hrecv : ∀ i, recv i = some (d i)) :
    ∀ fuel i calls acc,
      scanLoop recv key fuel i calls acc
        = (calls + fuel, acc ++ concatBits d i fuel) := by
  intro fuel
  induction fuel with
  | zero =>
      intro i calls acc
      simp [scanLoop, concatBits]
  | succ fuel ih =>
      intro i calls acc
      simp only [scanLoop]
      rw [hrecv i, recvAppend_some, if_neg (hkey i), ih]
      rw [show calls + 1 + fuel = calls + (fuel + 1) from by omega]
      rw [concatBits, List.append_assoc]

/-- When every receive call returns the two bits `[1, 0]`, `fuel`
iterations accumulate `2 * fuel` bits. -/
theorem concatBits_const_length (d : Nat → List Nat) (hd : ∀ i, d i = [1, 0]) :
    ∀ fuel i, (concatBits d i fuel).length = 2 * fuel := by
  intro fuel
  induction fuel with
  | zero => intro i; simp [concatBits]
  | succ fuel ih =>
      intro i
      rw [concatBits, List.length_append, hd i, ih]
      simp
      omega

/-- C8: with the transceiver present, arming successful, no polled key ever
`back` and every receive call succeeding, the scanner performs exactly 200
bounded receive calls and accumulates every returned bit; and when every
call returns the two bits `[1, 0]`, the captured total is 400 and the
completion log message reports exactly that count. -/
theorem rf_scanner_complete (recv : Nat → Option (List Nat)) (key : Nat → Option Key)
    (d : Nat → List Nat) (armErr : String)
    (hkey : ∀ i, key i ≠ some Key.back) (hrecv : ∀ i, recv i = some (d i)) :
    (rf_scanner true true armErr recv key).recv_calls = 200 ∧
      (rf_scanner true true armErr recv key).scan_data = concatBits d 0 200 ∧
      ((∀ i, d i = [1, 0]) →
        (rf_scanner true true armErr recv key).scan_data.length = 400 ∧
        (rf_scanner true true armErr recv key).logs
          = ["Starting RF scanner", "Scan complete: 400 bits captured"]) := by
  have hloop := scanLoop_no_back recv key d hkey hrecv 200 0 0 []
  have hrf : rf_scanner true true armErr recv key
      = { message_shown := none, recv_calls := 200,
          scan_data := concatBits d 0 200,
          logs := ["Starting RF scanner",
                   "Scan complete: " ++ toString (concatBits d 0 200).length
                     ++ " bits captured"] } := by
    simp [rf_scanner, hloop]
  refine ⟨by rw [hrf], by rw [hrf], ?_⟩
  intro hconst
  have hlen := concatBits_const_length d hconst 200 0
  constructor
  · rw [hrf]
    exact hlen
  · rw [hrf]
    simp only [hlen]
    decide

/-- A receive oracle that always returns the two bits `[1, 0]`. -/
def recvConst : Nat → Option (List Nat) := fun _ => some [1, 0]

/-- A key oracle that never reports a key. -/
def keyNone : Nat → Option Key := fun _ => none

/-- The per-call bit lists matching `recvConst`. -/
def bitsConst : Nat → List Nat := fun _ => [1, 0]

/-- Witness for C8 with the constant oracles. -/
theorem rf_scanner_complete_witness :
    (rf_scanner true true "" recvConst keyNone).recv_calls = 200 ∧
      (rf_scanner true true "" recvConst keyNone).logs
        = ["Starting RF scanner", "Scan complete: 400 bits captured"] := by
  have h := rf_scanner_complete recvConst keyNone bitsConst ""
    (fun i => by simp [keyNone]) (fun i => rfl)
  exact ⟨h.1, (h.2.2 (fun i => rfl)).2⟩

end PwnSubGhz
